import Mathlib

/-!
Shallow embedding of the music-personality analysis engine of the
repository (`app/music_personality.py`), together with proofs that settle
the specification claims about it.

Conventions of the embedding:
* Python `float` is modelled as `ℚ` (the analyzer only ever adds,
  multiplies, divides and compares decimal fractions).
* Python `dict[str, float]` built by successive assignments is modelled as
  an insertion-ordered association list `ScoreMap` with `getD` mirroring
  `dict.get(k, d)` and `setK` mirroring `d[k] = v` (update first
  occurrence in place, else append — exactly a `dict` with unique keys).
* `statistics.mean` is modelled by `mean` (sum divided by length); the
  source only ever calls it on non-empty lists, which every use below
  respects.
* Python string operations are modelled structurally over `List Char`:
  `strIn` is the substring test `needle in haystack`, `strLower` is
  `str.lower`, `pySplit` is `str.split()` (split on whitespace, dropping
  empty pieces).
* `round(x, 1)` is modelled by `pyRound1` (round half to even at one
  decimal, the tie semantics of Python `round`).
* `list.sort(key=..., reverse=True)` is a stable descending sort; it is
  modelled by the stable insertion sort `sortByPercentageDesc`.
-/

/-- Mirrors `app.models.Artist` (the fields the analyzer reads; the
`images` / `external_urls` dictionaries are presentation data never
touched by the analysis code). -/
structure Artist where
  id : String
  name : String
  genres : List String
  popularity : Int
deriving DecidableEq

/-- Mirrors `app.models.Track` (the untyped `album` dictionary is never
read by the analyzer and is omitted). -/
structure Track where
  id : String
  name : String
  artists : List Artist
  duration_ms : Int
  popularity : Int
deriving DecidableEq

/-- Mirrors `app.models.AudioFeatures`. -/
structure AudioFeatures where
  id : String
  danceability : ℚ
  energy : ℚ
  valence : ℚ
  tempo : ℚ
  acousticness : ℚ
  instrumentalness : ℚ
  liveness : ℚ
  speechiness : ℚ
deriving DecidableEq

/-- Mirrors the dataclass `PersonalityScore` of `music_personality.py`. -/
structure PersonalityScore where
  category : String
  percentage : ℚ
  description : String
  traits : List String
deriving DecidableEq

/-- A Python `dict[str, float]` in insertion order. -/
abbrev ScoreMap := List (String × ℚ)

/-- Python `m.get(k, d)` on an insertion-ordered dict. -/
def getD : ScoreMap → String → ℚ → ℚ
  | [], _, d => d
  | p :: ps, k, d => if p.1 = k then p.2 else getD ps k d

/-- Python `m[k] = v` on an insertion-ordered dict with unique keys: replace the
first binding of `k` in place, or append a new binding at the end. -/
def setK : ScoreMap → String → ℚ → ScoreMap
  | [], k, v => [(k, v)]
  | p :: ps, k, v => if p.1 = k then (k, v) :: ps else p :: setK ps k v

/-- Python substring test `needle in haystack`, over character lists. -/
def charsIn : List Char → List Char → Bool
  | needle, [] => needle.isEmpty
  | needle, c :: rest => needle.isPrefixOf (c :: rest) || charsIn needle rest

/-- Python `needle in haystack` on strings. -/
def strIn (needle haystack : String) : Bool :=
  charsIn needle.toList haystack.toList

/-- Python `str.lower()` (the genre table and all tags are ASCII). -/
def strLower (s : String) : String :=
  String.mk (s.toList.map Char.toLower)

/-- Helper for `pySplit`: cut a character list at whitespace. -/
def splitWsAux : List Char → List Char → List (List Char)
  | cur, [] => [cur.reverse]
  | cur, c :: rest =>
      if c.isWhitespace then cur.reverse :: splitWsAux [] rest
      else splitWsAux (c :: cur) rest

/-- Python `str.split()`: split on whitespace, dropping empty pieces. -/
def pySplit (s : String) : List String :=
  ((splitWsAux [] s.toList).map String.mk).filter (fun w => w ≠ "")

/-- Python `statistics.mean`, as the exact rational mean. -/
def mean (l : List ℚ) : ℚ := l.sum / (l.length : ℚ)

/-- The static genre-keyword table `self.genre_weights` of
`MusicPersonalityAnalyzer.__init__`, verbatim and in source order. -/
def genre_weights : List (String × ScoreMap) :=
  [ ("pop", [("performative", 0.8), ("pandering", 0.6)]),
    ("top 40", [("performative", 0.9), ("pandering", 0.8)]),
    ("mainstream", [("performative", 0.8), ("pandering", 0.7)]),
    ("experimental", [("avant_garde", 0.9), ("sophisticated", 0.7)]),
    ("noise", [("avant_garde", 0.8), ("sophisticated", 0.6)]),
    ("ambient", [("avant_garde", 0.6), ("sophisticated", 0.8)]),
    ("drone", [("avant_garde", 0.7), ("sophisticated", 0.7)]),
    ("free jazz", [("avant_garde", 0.8), ("sophisticated", 0.9)]),
    ("classical", [("sophisticated", 0.9), ("avant_garde", 0.3)]),
    ("jazz", [("sophisticated", 0.8), ("explorer", 0.6)]),
    ("baroque", [("sophisticated", 0.9), ("avant_garde", 0.4)]),
    ("opera", [("sophisticated", 0.8), ("performative", 0.4)]),
    ("chamber music", [("sophisticated", 0.9), ("avant_garde", 0.3)]),
    ("world", [("explorer", 0.8), ("sophisticated", 0.5)]),
    ("afrobeat", [("explorer", 0.7), ("trendsetter", 0.6)]),
    ("k-pop", [("explorer", 0.6), ("trendsetter", 0.8)]),
    ("bossa nova", [("explorer", 0.7), ("sophisticated", 0.6)]),
    ("cumbia", [("explorer", 0.8), ("trendsetter", 0.5)]),
    ("hyperpop", [("trendsetter", 0.9), ("avant_garde", 0.6)]),
    ("phonk", [("trendsetter", 0.8), ("explorer", 0.5)]),
    ("drill", [("trendsetter", 0.7), ("performative", 0.6)]),
    ("bedroom pop", [("trendsetter", 0.6), ("sophisticated", 0.7)]) ]

/-- The match test of `_analyze_genres`:
`genre_key in genre_lower or any(word in genre_lower for word in genre_key.split())`. -/
def genreMatches (genre_key genre_lower : String) : Bool :=
  strIn genre_key genre_lower || (pySplit genre_key).any (fun word => strIn word genre_lower)

/-- Source `[a.popularity for a in artists if a.popularity]`. -/
def nonzero_artist_pops (artists : List Artist) : List Int :=
  (artists.filter (fun a => a.popularity ≠ 0)).map Artist.popularity

/-- Source `[t.popularity for t in tracks if t.popularity]`. -/
def nonzero_track_pops (tracks : List Track) : List Int :=
  (tracks.filter (fun t => t.popularity ≠ 0)).map Track.popularity

/-- The `avg_popularity` of `_analyze_popularity`:
`statistics.mean(artist_popularities + track_popularities)` over the
nonzero popularity values. -/
def avg_popularity (artists : List Artist) (tracks : List Track) : ℚ :=
  mean ((nonzero_artist_pops artists ++ nonzero_track_pops tracks).map (fun p => (p : ℚ)))

/-- Source method `MusicPersonalityAnalyzer._analyze_popularity`. -/
def _analyze_popularity (artists : List Artist) (tracks : List Track) : ScoreMap :=
  if (nonzero_artist_pops artists).isEmpty && (nonzero_track_pops tracks).isEmpty then []
  else
    if avg_popularity artists tracks ≥ 70 then [("performative", 0.8), ("pandering", 0.6)]
    else if avg_popularity artists tracks ≤ 30 then [("avant_garde", 0.7), ("sophisticated", 0.5)]
    else [("explorer", 0.6)]

/-- The flattened genre-tag multiset `all_genres`, in source order (built
identically at the start of `_analyze_genres` and `_analyze_diversity`). -/
def all_genres_of (artists : List Artist) : List String :=
  (artists.map Artist.genres).flatten

/-- One pass of the inner accumulation loop of `_analyze_genres`: add a
whole keyword weight dictionary into the score dict. -/
def addWeights (sc : ScoreMap) (ws : ScoreMap) : ScoreMap :=
  ws.foldl (fun sc cw => setK sc cw.1 (getD sc cw.1 0 + cw.2)) sc

/-- Process one (already lowercased) genre tag against every keyword of
`genre_weights`, as the middle loop of `_analyze_genres` does. -/
def scoreTag (sc : ScoreMap) (genre_lower : String) : ScoreMap :=
  genre_weights.foldl
    (fun sc kw => if genreMatches kw.1 genre_lower then addWeights sc kw.2 else sc) sc

/-- The all-zero initial score dict of `_analyze_genres`. -/
def genres_init : ScoreMap :=
  [("performative", 0), ("avant_garde", 0), ("pandering", 0),
   ("sophisticated", 0), ("explorer", 0), ("trendsetter", 0)]

/-- Source method `MusicPersonalityAnalyzer._analyze_genres`. -/
def _analyze_genres (artists : List Artist) : ScoreMap :=
  let all_genres := all_genres_of artists
  if all_genres.isEmpty then []
  else
    let scores := all_genres.foldl (fun sc genre => scoreTag sc (strLower genre)) genres_init
    scores.map (fun p => (p.1, p.2 / (all_genres.length : ℚ)))

/-- Mean energy over the input vectors. -/
def avg_energy (afs : List AudioFeatures) : ℚ := mean (afs.map AudioFeatures.energy)

/-- Mean danceability over the input vectors. -/
def avg_danceability (afs : List AudioFeatures) : ℚ := mean (afs.map AudioFeatures.danceability)

/-- Mean valence over the input vectors. -/
def avg_valence (afs : List AudioFeatures) : ℚ := mean (afs.map AudioFeatures.valence)

/-- Mean acousticness over the input vectors. -/
def avg_acousticness (afs : List AudioFeatures) : ℚ := mean (afs.map AudioFeatures.acousticness)

/-- Mean instrumentalness over the input vectors. -/
def avg_instrumentalness (afs : List AudioFeatures) : ℚ := mean (afs.map AudioFeatures.instrumentalness)

/-- Source method `MusicPersonalityAnalyzer._analyze_audio_features`. -/
def _analyze_audio_features (audio_features : List AudioFeatures) : ScoreMap :=
  if audio_features.isEmpty then []
  else
    let e := avg_energy audio_features
    let d := avg_danceability audio_features
    let v := avg_valence audio_features
    let ac := avg_acousticness audio_features
    let ins := avg_instrumentalness audio_features
    let s0 : ScoreMap := []
    let s1 := if e > 0.7 ∧ d > 0.7 then setK (setK s0 "pandering" 0.7) "performative" 0.5 else s0
    let s2 := if ac > 0.6 ∧ e < 0.4 then setK s1 "sophisticated" 0.8 else s1
    let s3 := if ins > 0.5 then setK s2 "avant_garde" 0.6 else s2
    if v < 0.3 ∨ v > 0.9 then setK s3 "avant_garde" (getD s3 "avant_garde" 0 + 0.4) else s3

/-- Source `len(set(all_genres))`. -/
def unique_genre_count (artists : List Artist) : Nat :=
  (all_genres_of artists).eraseDups.length

/-- Source `len(all_genres) or 1` (an `int` is falsy exactly when it is `0`). -/
def total_genre_count (artists : List Artist) : Nat :=
  if (all_genres_of artists).length = 0 then 1 else (all_genres_of artists).length

/-- The `diversity_ratio` computed by `_analyze_diversity`. -/
def diversity_ratio_q (artists : List Artist) : ℚ :=
  (unique_genre_count artists : ℚ) / (total_genre_count artists : ℚ)

/-- Source method `MusicPersonalityAnalyzer._analyze_diversity` (`tracks` is accepted
and ignored, as in the source). -/
def _analyze_diversity (artists : List Artist) (tracks : List Track) : ScoreMap :=
  let r := diversity_ratio_q artists
  if r > 0.7 then [("explorer", 0.8), ("trendsetter", 0.5)]
  else if r < 0.3 then [("pandering", 0.6)]
  else []

/-- Source method `MusicPersonalityAnalyzer._get_personality_descriptions`, verbatim:
each entry is (category, description, traits). -/
def _get_personality_descriptions : List (String × String × List String) :=
  [ ("performative",
     "You love music that makes a statement and gets attention",
     ["Enjoys popular hits", "Likes energetic music", "Values mainstream appeal",
      "Appreciates polished production"]),
    ("avant_garde",
     "You seek out experimental and boundary-pushing sounds",
     ["Appreciates complexity", "Enjoys unusual sounds", "Values artistic innovation",
      "Open to challenging music"]),
    ("pandering",
     "You enjoy feel-good, accessible music that hits the right spots",
     ["Prefers catchy melodies", "Likes danceable beats", "Values emotional appeal",
      "Enjoys familiar structures"]),
    ("sophisticated",
     "You appreciate nuanced, intellectually engaging music",
     ["Values musical complexity", "Enjoys acoustic elements", "Appreciates craftsmanship",
      "Prefers depth over intensity"]),
    ("explorer",
     "You love discovering diverse sounds from around the world",
     ["Seeks musical diversity", "Enjoys world music", "Values cultural exploration",
      "Open to new experiences"]),
    ("trendsetter",
     "You stay ahead of the curve with emerging sounds and artists",
     ["Discovers new genres early", "Values innovation", "Enjoys cutting-edge production",
      "Influences others\x27 taste"]) ]

/-- Source lookup `personality_types[category].description` (total: the category is
always one of the six, for which the table always has an entry). -/
def descOf (category : String) : String :=
  match _get_personality_descriptions.find? (fun p => p.1 = category) with
  | some p => p.2.1
  | none => ""

/-- Source lookup `personality_types[category].traits`. -/
def traitsOf (category : String) : List String :=
  match _get_personality_descriptions.find? (fun p => p.1 = category) with
  | some p => p.2.2
  | none => []

/-- The fixed key list of the `scores` dict initialized at the top of
`analyze_personality`, in insertion order. -/
def six_categories : List String :=
  ["performative", "avant_garde", "pandering", "sophisticated", "explorer", "trendsetter"]

/-- The combined weighted score
`popularity*0.3 + genre*0.3 + audio*0.25 + diversity*0.15` of one
category, as assigned in the combination loop of `analyze_personality`. -/
def combinedScore (artists : List Artist) (tracks : List Track)
    (audio_features : List AudioFeatures) (category : String) : ℚ :=
  getD (_analyze_popularity artists tracks) category 0 * 0.3 +
  getD (_analyze_genres artists) category 0 * 0.3 +
  getD (_analyze_audio_features audio_features) category 0 * 0.25 +
  getD (_analyze_diversity artists tracks) category 0 * 0.15

/-- The `scores` dict after the combination loop. -/
def scores_list (artists : List Artist) (tracks : List Track)
    (audio_features : List AudioFeatures) : ScoreMap :=
  six_categories.map (fun c => (c, combinedScore artists tracks audio_features c))

/-- Source `sum(scores.values())`. -/
def total_raw (artists : List Artist) (tracks : List Track)
    (audio_features : List AudioFeatures) : ℚ :=
  ((scores_list artists tracks audio_features).map Prod.snd).sum

/-- Source `total = sum(scores.values()) or 1` (a `float` is falsy exactly when
it is zero). -/
def total_or_one (artists : List Artist) (tracks : List Track)
    (audio_features : List AudioFeatures) : ℚ :=
  if total_raw artists tracks audio_features = 0 then 1
  else total_raw artists tracks audio_features

/-- The unrounded normalized percentage `(v / total) * 100` of one
category. -/
def normPct (artists : List Artist) (tracks : List Track)
    (audio_features : List AudioFeatures) (category : String) : ℚ :=
  combinedScore artists tracks audio_features category /
    total_or_one artists tracks audio_features * 100

/-- The `normalized_scores` dict, in the key order of `scores`. -/
def normalized_scores (artists : List Artist) (tracks : List Track)
    (audio_features : List AudioFeatures) : ScoreMap :=
  six_categories.map (fun c => (c, normPct artists tracks audio_features c))

/-- Round to the nearest integer, halves to even — the tie behaviour of
Python `round`. -/
def roundHalfEven (q : ℚ) : ℤ :=
  let f := ⌊q⌋
  if q - f < 1/2 then f
  else if q - f > 1/2 then f + 1
  else if f % 2 = 0 then f else f + 1

/-- Python `round(x, 1)`. -/
def pyRound1 (q : ℚ) : ℚ := (roundHalfEven (q * 10) : ℚ) / 10

/-- The `PersonalityScore(...)` constructor call of the result loop. -/
def mkScore (category : String) (percentage : ℚ) : PersonalityScore :=
  ⟨category, pyRound1 percentage, descOf category, traitsOf category⟩

/-- The `results` list right before sorting: every category whose
normalized percentage exceeds 5, in dict order. -/
def resultsUnsorted (artists : List Artist) (tracks : List Track)
    (audio_features : List AudioFeatures) : List PersonalityScore :=
  (normalized_scores artists tracks audio_features).filterMap
    (fun p => if p.2 > 5 then some (mkScore p.1 p.2) else none)

/-- Stable descending insertion for `sortByPercentageDesc`: a new element
goes after strictly greater keys and before equal or smaller ones. -/
def insertDesc (x : PersonalityScore) : List PersonalityScore → List PersonalityScore
  | [] => [x]
  | y :: ys => if y.percentage > x.percentage then y :: insertDesc x ys else x :: y :: ys

/-- Source `results.sort(key=lambda x: x.percentage, reverse=True)` — the Python
sort is stable, and a stable descending sort is exactly this insertion
sort. -/
def sortByPercentageDesc : List PersonalityScore → List PersonalityScore
  | [] => []
  | x :: xs => insertDesc x (sortByPercentageDesc xs)

/-- Source method `MusicPersonalityAnalyzer.analyze_personality`. -/
def analyze_personality (artists : List Artist) (tracks : List Track)
    (audio_features : List AudioFeatures) : List PersonalityScore :=
  sortByPercentageDesc (resultsUnsorted artists tracks audio_features)

/-! ### Specification-side formulas used to state the claims -/

/-- Total weight a single keyword weight dictionary gives to category
`c` (the dictionaries in `genre_weights` bind each key once). -/
def wsum (ws : ScoreMap) (c : String) : ℚ :=
  (ws.map (fun cw => if cw.1 = c then cw.2 else 0)).sum

/-- Total weight one lowercased tag contributes to category `c`: the sum
of the weights of every keyword the tag matches. -/
def tagSum (tag c : String) : ℚ :=
  (genre_weights.map (fun kw => if genreMatches kw.1 tag then wsum kw.2 c else 0)).sum

/-- The raw (pre-division) genre accumulator for category `c` described
by the spec: sum over all tags of all matched keyword weights. -/
def genreRaw (tags : List String) (c : String) : ℚ :=
  (tags.map (fun g => tagSum (strLower g) c)).sum

/-! ### Concrete example inputs used by the claims -/

/-- An artist mixing classical, opera, world and drill tags whose final
percentages for performative and avant-garde round to the same value. -/
def cexArtist : Artist :=
  ⟨"artist-1", "Artist One", ["classical", "classical", "opera", "world", "drill"], 50⟩

/-- An audio-feature vector firing the energy/danceability rule and the
instrumentalness rule but not the valence rule. -/
def cexFeature : AudioFeatures := ⟨"feat-1", 0.8, 0.8, 0.5, 120, 0, 0.6, 0, 0⟩

/-- A low-popularity artist with the single genre tag "world". -/
def exArtist10 : Artist := ⟨"artist-2", "Artist Two", ["world"], 20⟩

/-- The audio-feature vector of the audio example in the spec: energy 0.8,
danceability 0.8, valence 0.95, instrumentalness 0.6. -/
def exFeature10 : AudioFeatures := ⟨"feat-2", 0.8, 0.8, 0.95, 120, 0, 0.6, 0, 0⟩

/-- The single-genre "classical" artist of the spec. -/
def exArtistClassical : Artist := ⟨"artist-3", "Artist Three", ["classical"], 0⟩

/-- An artist with popularity 80 and no genre tags. -/
def exArtistPop80 : Artist := ⟨"artist-4", "Artist Four", [], 80⟩

/-- An artist whose tags give diversity ratio 2/3 (inside the dead band);
the tags match no genre keyword. -/
def exArtistBand : Artist := ⟨"artist-5", "Artist Five", ["indie", "indie", "folk"], 0⟩

/-! ### Dictionary lemmas -/

set_option maxRecDepth 4000 in
/-- Reading back through a single dict assignment. -/
theorem getD_setK (m : ScoreMap) (k : String) (v : ℚ) (k' : String) (d : ℚ) :
    getD (setK m k v) k' d = if k' = k then v else getD m k' d := by
  induction m with
  | nil =>
      simp only [setK, getD]
      split_ifs <;> simp_all
  | cons p ps ih =>
      simp only [setK]
      by_cases hpk : p.1 = k
      · rw [if_pos hpk]
        by_cases h : k' = k
        · subst h; simp [getD]
        · have h2 : ¬ p.1 = k' := fun hh => h (hh ▸ hpk)
          simp only [getD, if_neg h]
          rw [if_neg (fun hh : k = k' => h hh.symm), if_neg h2]
      · rw [if_neg hpk]
        simp only [getD]
        by_cases h2 : p.1 = k'
        · have hkk : ¬ k' = k := fun hh => hpk (h2.trans hh)
          rw [if_pos h2, if_neg hkk, if_pos h2]
        · rw [if_neg h2, ih]
          by_cases h : k' = k
          · rw [if_pos h, if_pos h]
          · rw [if_neg h, if_neg h, if_neg h2]

/-- If every key of `m` lies in `S` and so does `k`, the same holds after
the assignment `m[k] = v`. -/
theorem keys_setK (m : ScoreMap) (k : String) (v : ℚ) (S : List String)
    (hm : ∀ p ∈ m, p.1 ∈ S) (hk : k ∈ S) : ∀ p ∈ setK m k v, p.1 ∈ S := by
  induction m with
  | nil => intro p hp; simp [setK] at hp; simp [hp, hk]
  | cons q qs ih =>
      intro p hp
      by_cases hq : q.1 = k
      · simp [setK, hq] at hp
        rcases hp with h | h
        · simp [h, hk]
        · exact hm p (List.mem_cons_of_mem q h)
      · simp [setK, hq] at hp
        rcases hp with h | h
        · exact hm p (h ▸ List.mem_cons_self q qs)
        · exact ih (fun r hr => hm r (List.mem_cons_of_mem q hr)) p h

/-- A key outside the key set reads back as the default. -/
theorem getD_eq_default (m : ScoreMap) (c : String) (d : ℚ)
    (h : ∀ p ∈ m, p.1 ≠ c) : getD m c d = d := by
  induction m with
  | nil => rfl
  | cons p ps ih =>
      have hp : p.1 ≠ c := h p (List.mem_cons_self p ps)
      simp [getD, hp]
      exact ih fun q hq => h q (List.mem_cons_of_mem p hq)

/-! ### The genre accumulation loop as a sum -/

/-- Adding a whole weight dictionary changes each accumulator by exactly
the weight that dictionary holds for the key. -/
theorem getD_addWeights (ws : ScoreMap) (sc : ScoreMap) (c : String) :
    getD (addWeights sc ws) c 0 = getD sc c 0 + wsum ws c := by
  induction ws generalizing sc with
  | nil => simp [addWeights, wsum]
  | cons cw rest ih =>
      have h1 : addWeights sc (cw :: rest)
          = addWeights (setK sc cw.1 (getD sc cw.1 0 + cw.2)) rest := by
        simp [addWeights]
      rw [h1, ih, getD_setK]
      have hw : wsum (cw :: rest) c = (if cw.1 = c then cw.2 else 0) + wsum rest c := by
        simp [wsum]
      rw [hw]
      by_cases hc : c = cw.1
      · subst hc; simp; ring
      · rw [if_neg hc, if_neg fun h => hc h.symm]; ring

/-- The keyword loop (over any keyword table) accumulates, per category,
the sum of the weights of the matched keywords. -/
theorem getD_keyFold (L : List (String × ScoreMap)) (sc : ScoreMap) (tag c : String) :
    getD (L.foldl (fun sc kw => if genreMatches kw.1 tag then addWeights sc kw.2 else sc) sc) c 0
      = getD sc c 0 + (L.map (fun kw => if genreMatches kw.1 tag then wsum kw.2 c else 0)).sum := by
  induction L generalizing sc with
  | nil => simp
  | cons kw rest ih =>
      simp only [List.foldl_cons, List.map_cons, List.sum_cons]
      by_cases h : genreMatches kw.1 tag
      · rw [if_pos h, if_pos h, ih, getD_addWeights]; ring
      · rw [if_neg h, if_neg h, ih]; ring

/-- Lemma: `scoreTag` adds exactly `tagSum` to each accumulator. -/
theorem getD_scoreTag (sc : ScoreMap) (tag c : String) :
    getD (scoreTag sc tag) c 0 = getD sc c 0 + tagSum tag c :=
  getD_keyFold genre_weights sc tag c

/-- The outer tag loop of `_analyze_genres` accumulates `genreRaw`. -/
theorem getD_tagFold (tags : List String) (sc : ScoreMap) (c : String) :
    getD (tags.foldl (fun sc genre => scoreTag sc (strLower genre)) sc) c 0
      = getD sc c 0 + genreRaw tags c := by
  induction tags generalizing sc with
  | nil => simp [genreRaw]
  | cons g rest ih =>
      simp only [List.foldl_cons]
      rw [ih, getD_scoreTag]
      simp only [genreRaw, List.map_cons, List.sum_cons]
      ring

/-- The initial accumulator of `_analyze_genres` is zero everywhere. -/
theorem getD_genres_init (c : String) : getD genres_init c 0 = 0 := by
  simp only [genres_init, getD]
  split_ifs <;> rfl

/-- Reading through the final per-tag-count division of
`_analyze_genres`. -/
theorem getD_map_div (m : ScoreMap) (n : ℚ) (c : String) :
    getD (m.map (fun p => (p.1, p.2 / n))) c 0 = getD m c 0 / n := by
  induction m with
  | nil => simp [getD]
  | cons p ps ih =>
      simp only [List.map_cons, getD]
      by_cases h : p.1 = c
      · rw [if_pos h, if_pos h]
      · rw [if_neg h, if_neg h, ih]

/-- Characterization of the genre sub-scorer on non-empty tag lists: each
accumulator is the total matched weight divided by the number of tags. -/
theorem genres_getD (artists : List Artist) (h : all_genres_of artists ≠ []) (c : String) :
    getD (_analyze_genres artists) c 0
      = genreRaw (all_genres_of artists) c / ((all_genres_of artists).length : ℚ) := by
  have hne : (all_genres_of artists).isEmpty = false := by
    simp [List.isEmpty_iff, h]
  simp only [_analyze_genres, hne, Bool.false_eq_true, if_false]
  rw [getD_map_div, getD_tagFold, getD_genres_init, zero_add]

/-! ### Sorting lemmas -/

/-- Inserting permutes. -/
theorem insertDesc_perm (x : PersonalityScore) (l : List PersonalityScore) :
    List.Perm (insertDesc x l) (x :: l) := by
  induction l with
  | nil => rfl
  | cons y ys ih =>
      simp only [insertDesc]
      by_cases h : y.percentage > x.percentage
      · rw [if_pos h]
        exact (ih.cons y).trans (List.Perm.swap x y ys)
      · rw [if_neg h]

/-- The sort of `analyze_personality` permutes its input. -/
theorem sortByPercentageDesc_perm (l : List PersonalityScore) :
    List.Perm (sortByPercentageDesc l) l := by
  induction l with
  | nil => rfl
  | cons x xs ih =>
      exact (insertDesc_perm x (sortByPercentageDesc xs)).trans (ih.cons x)

/-- Membership in an insertion. -/
theorem mem_insertDesc {a x : PersonalityScore} {l : List PersonalityScore} :
    a ∈ insertDesc x l ↔ a = x ∨ a ∈ l := by
  rw [(insertDesc_perm x l).mem_iff, List.mem_cons]

/-- Insertion preserves descending order of the `percentage` field. -/
theorem insertDesc_pairwise (x : PersonalityScore) (l : List PersonalityScore)
    (hl : l.Pairwise (fun a b => b.percentage ≤ a.percentage)) :
    (insertDesc x l).Pairwise (fun a b => b.percentage ≤ a.percentage) := by
  induction l with
  | nil => simp [insertDesc]
  | cons y ys ih =>
      simp only [insertDesc]
      rcases List.pairwise_cons.mp hl with ⟨hy, hys⟩
      by_cases h : y.percentage > x.percentage
      · rw [if_pos h]
        refine List.pairwise_cons.mpr ⟨?_, ih hys⟩
        intro a ha
        rcases mem_insertDesc.mp ha with rfl | ha
        · exact le_of_lt h
        · exact hy a ha
      · rw [if_neg h]
        refine List.pairwise_cons.mpr ⟨?_, hl⟩
        intro a ha
        rcases List.mem_cons.mp ha with rfl | ha
        · exact le_of_not_lt h
        · exact le_trans (hy a ha) (le_of_not_lt h)

/-- The result list of the sort is descending in the `percentage` field. -/
theorem sortByPercentageDesc_pairwise (l : List PersonalityScore) :
    (sortByPercentageDesc l).Pairwise (fun a b => b.percentage ≤ a.percentage) := by
  induction l with
  | nil => simp [sortByPercentageDesc]
  | cons x xs ih => exact insertDesc_pairwise x _ ih

/-! ### Membership in the result list -/

/-- The entries of the pre-sort result list are exactly the categories
whose unrounded percentage exceeds 5. -/
theorem mem_resultsUnsorted {artists : List Artist} {tracks : List Track}
    {audio_features : List AudioFeatures} {e : PersonalityScore} :
    e ∈ resultsUnsorted artists tracks audio_features ↔
      ∃ c ∈ six_categories, 5 < normPct artists tracks audio_features c ∧
        e = mkScore c (normPct artists tracks audio_features c) := by
  simp only [resultsUnsorted, normalized_scores, List.filterMap_map, List.mem_filterMap]
  constructor
  · rintro ⟨c, hc, he⟩
    dsimp at he
    split_ifs at he with h
    · exact ⟨c, hc, h, (Option.some_inj.mp he).symm⟩
  · rintro ⟨c, hc, h5, rfl⟩
    refine ⟨c, hc, ?_⟩
    dsimp
    rw [if_pos h5]

/-- Membership in the final result agrees with the pre-sort list. -/
theorem mem_analyze {artists : List Artist} {tracks : List Track}
    {audio_features : List AudioFeatures} {e : PersonalityScore} :
    e ∈ analyze_personality artists tracks audio_features ↔
      e ∈ resultsUnsorted artists tracks audio_features :=
  (sortByPercentageDesc_perm _).mem_iff

/-! ### Key-set and non-negativity facts about the sub-scorers -/

/-- Every weight in the static genre table is non-negative. -/
theorem genre_weights_nonneg : ∀ kw ∈ genre_weights, ∀ cw ∈ kw.2, (0:ℚ) ≤ cw.2 := by
  intro kw hkw cw hcw
  fin_cases hkw <;>
    simp only [List.mem_cons, List.not_mem_nil, or_false] at hcw <;>
    rcases hcw with rfl | rfl <;> norm_num

/-- Every category named in the static genre table is one of the six. -/
theorem genre_weights_keys : ∀ kw ∈ genre_weights, ∀ cw ∈ kw.2, cw.1 ∈ six_categories := by
  decide

/-- A dict with non-negative values reads back non-negative (default 0). -/
theorem getD_nonneg_of (m : ScoreMap) (c : String) (h : ∀ p ∈ m, 0 ≤ p.2) :
    0 ≤ getD m c 0 := by
  induction m with
  | nil => simp [getD]
  | cons p ps ih =>
      simp only [getD]
      by_cases hp : p.1 = c
      · rw [if_pos hp]; exact h p (List.mem_cons_self p ps)
      · rw [if_neg hp]; exact ih fun q hq => h q (List.mem_cons_of_mem p hq)

/-- Lemma: `wsum` of a dict with non-negative values is non-negative. -/
theorem wsum_nonneg (ws : ScoreMap) (c : String) (h : ∀ cw ∈ ws, 0 ≤ cw.2) :
    0 ≤ wsum ws c := by
  apply List.sum_nonneg
  intro x hx
  rcases List.mem_map.mp hx with ⟨cw, hcw, rfl⟩
  by_cases hc : cw.1 = c
  · rw [if_pos hc]; exact h cw hcw
  · rw [if_neg hc]

/-- The total contribution of a tag to any category is non-negative. -/
theorem tagSum_nonneg (tag c : String) : 0 ≤ tagSum tag c := by
  apply List.sum_nonneg
  intro x hx
  rcases List.mem_map.mp hx with ⟨kw, hkw, rfl⟩
  by_cases hm : genreMatches kw.1 tag
  · rw [if_pos hm]; exact wsum_nonneg _ _ (genre_weights_nonneg kw hkw)
  · rw [if_neg hm]

/-- The raw genre accumulator is non-negative. -/
theorem genreRaw_nonneg (tags : List String) (c : String) : 0 ≤ genreRaw tags c := by
  apply List.sum_nonneg
  intro x hx
  rcases List.mem_map.mp hx with ⟨g, hg, rfl⟩
  exact tagSum_nonneg _ _

/-- The genre sub-scorer on an artist list without genre tags. -/
theorem genres_empty (artists : List Artist) (h : all_genres_of artists = []) :
    _analyze_genres artists = [] := by
  simp [_analyze_genres, h]

/-- Non-negativity of the genre sub-scorer at every category. -/
theorem genres_nonneg (artists : List Artist) (c : String) :
    0 ≤ getD (_analyze_genres artists) c 0 := by
  by_cases h : all_genres_of artists = []
  · rw [genres_empty artists h]; simp [getD]
  · rw [genres_getD artists h c]
    exact div_nonneg (genreRaw_nonneg _ _) (Nat.cast_nonneg _)

/-- Non-negativity of the popularity sub-scorer at every category. -/
theorem pop_nonneg (artists : List Artist) (tracks : List Track) (c : String) :
    0 ≤ getD (_analyze_popularity artists tracks) c 0 := by
  unfold _analyze_popularity
  try dsimp only
  split_ifs <;> apply getD_nonneg_of <;> intro p hp <;>
    simp only [List.mem_cons, List.not_mem_nil, or_false] at hp
  · rcases hp with rfl | rfl <;> norm_num
  · rcases hp with rfl | rfl <;> norm_num
  · rcases hp with rfl <;> norm_num

/-- Non-negativity of the diversity sub-scorer at every category. -/
theorem div_scorer_nonneg (artists : List Artist) (tracks : List Track) (c : String) :
    0 ≤ getD (_analyze_diversity artists tracks) c 0 := by
  unfold _analyze_diversity
  dsimp only
  split_ifs <;> apply getD_nonneg_of <;> intro p hp <;>
    simp only [List.mem_cons, List.not_mem_nil, or_false] at hp
  · rcases hp with rfl | rfl <;> norm_num
  · rcases hp with rfl <;> norm_num

/-- Lemma: `addWeights` keeps all keys inside `S`. -/
theorem keys_addWeights (ws sc : ScoreMap) (S : List String)
    (hsc : ∀ p ∈ sc, p.1 ∈ S) (hws : ∀ cw ∈ ws, cw.1 ∈ S) :
    ∀ p ∈ addWeights sc ws, p.1 ∈ S := by
  induction ws generalizing sc with
  | nil => simpa [addWeights] using hsc
  | cons cw rest ih =>
      have h1 : addWeights sc (cw :: rest)
          = addWeights (setK sc cw.1 (getD sc cw.1 0 + cw.2)) rest := by
        simp [addWeights]
      rw [h1]
      exact ih _
        (keys_setK _ _ _ _ hsc (hws cw (List.mem_cons_self cw rest)))
        (fun q hq => hws q (List.mem_cons_of_mem cw hq))

/-- The keyword loop keeps all keys inside `S` when the table only names
keys of `S`. -/
theorem keys_keyFold (L : List (String × ScoreMap)) (sc : ScoreMap) (tag : String)
    (S : List String) (hsc : ∀ p ∈ sc, p.1 ∈ S)
    (hL : ∀ kw ∈ L, ∀ cw ∈ kw.2, cw.1 ∈ S) :
    ∀ p ∈ L.foldl (fun sc kw => if genreMatches kw.1 tag then addWeights sc kw.2 else sc) sc,
      p.1 ∈ S := by
  induction L generalizing sc with
  | nil => simpa using hsc
  | cons kw rest ih =>
      simp only [List.foldl_cons]
      by_cases h : genreMatches kw.1 tag
      · rw [if_pos h]
        exact ih _ (keys_addWeights _ _ _ hsc (hL kw (List.mem_cons_self kw rest)))
          (fun q hq => hL q (List.mem_cons_of_mem kw hq))
      · rw [if_neg h]
        exact ih _ hsc (fun q hq => hL q (List.mem_cons_of_mem kw hq))

/-- The tag loop of `_analyze_genres` keeps all keys inside the six. -/
theorem keys_tagFold (tags : List String) (sc : ScoreMap)
    (hsc : ∀ p ∈ sc, p.1 ∈ six_categories) :
    ∀ p ∈ tags.foldl (fun sc genre => scoreTag sc (strLower genre)) sc,
      p.1 ∈ six_categories := by
  induction tags generalizing sc with
  | nil => simpa using hsc
  | cons g rest ih =>
      simp only [List.foldl_cons]
      exact ih _ (keys_keyFold genre_weights sc (strLower g) six_categories hsc genre_weights_keys)

/-- Every key the genre sub-scorer emits is one of the six categories. -/
theorem keys_genres (artists : List Artist) :
    ∀ p ∈ _analyze_genres artists, p.1 ∈ six_categories := by
  intro p hp
  by_cases h : all_genres_of artists = []
  · rw [genres_empty artists h] at hp
    exact absurd hp (List.not_mem_nil p)
  · have hne : (all_genres_of artists).isEmpty = false := by
      simp [List.isEmpty_iff, h]
    simp only [_analyze_genres, hne, Bool.false_eq_true, if_false] at hp
    rcases List.mem_map.mp hp with ⟨q, hq, rfl⟩
    exact keys_tagFold _ _ (by decide) q hq

/-- Every key the popularity sub-scorer emits is one of the six. -/
theorem keys_pop (artists : List Artist) (tracks : List Track) :
    ∀ p ∈ _analyze_popularity artists tracks, p.1 ∈ six_categories := by
  unfold _analyze_popularity
  try dsimp only
  split_ifs <;> intro p hp <;>
    simp only [List.mem_cons, List.not_mem_nil, or_false] at hp
  · rcases hp with rfl | rfl <;> decide
  · rcases hp with rfl | rfl <;> decide
  · rcases hp with rfl <;> decide

/-- Every key the diversity sub-scorer emits is one of the six. -/
theorem keys_div (artists : List Artist) (tracks : List Track) :
    ∀ p ∈ _analyze_diversity artists tracks, p.1 ∈ six_categories := by
  unfold _analyze_diversity
  dsimp only
  split_ifs <;> intro p hp <;>
    simp only [List.mem_cons, List.not_mem_nil, or_false] at hp
  · rcases hp with rfl | rfl <;> decide
  · rcases hp with rfl <;> decide

/-- Every key the audio sub-scorer emits is one of the six. -/
theorem keys_audio (afs : List AudioFeatures) :
    ∀ p ∈ _analyze_audio_features afs, p.1 ∈ six_categories := by
  unfold _analyze_audio_features
  dsimp only
  split_ifs <;> (repeat' apply keys_setK) <;>
    first
      | decide
      | (intro p hp; exact absurd hp (List.not_mem_nil p))

/-- The audio sub-scorer on empty input. -/
theorem audio_empty : _analyze_audio_features [] = [] := rfl

/-- Characterization of the audio sub-scorer on non-empty input: the four
rules act independently and the two avant-garde rules stack. -/
theorem audio_getD (afs : List AudioFeatures) (h : afs ≠ []) :
    getD (_analyze_audio_features afs) "pandering" 0
        = (if avg_energy afs > 0.7 ∧ avg_danceability afs > 0.7 then 0.7 else 0) ∧
    getD (_analyze_audio_features afs) "performative" 0
        = (if avg_energy afs > 0.7 ∧ avg_danceability afs > 0.7 then 0.5 else 0) ∧
    getD (_analyze_audio_features afs) "sophisticated" 0
        = (if avg_acousticness afs > 0.6 ∧ avg_energy afs < 0.4 then 0.8 else 0) ∧
    getD (_analyze_audio_features afs) "avant_garde" 0
        = (if avg_instrumentalness afs > 0.5 then 0.6 else 0)
          + (if avg_valence afs < 0.3 ∨ avg_valence afs > 0.9 then 0.4 else 0) := by
  have hne : afs.isEmpty = false := by simp [List.isEmpty_iff, h]
  refine ⟨?_, ?_, ?_, ?_⟩ <;>
    (unfold _analyze_audio_features;
     simp only [hne, Bool.false_eq_true, if_false];
     try dsimp only
     split_ifs <;> simp [setK, getD] <;> norm_num)

/-- The audio sub-scorer only ever writes its four rule categories. -/
theorem keys_audio4 (afs : List AudioFeatures) :
    ∀ p ∈ _analyze_audio_features afs,
      p.1 ∈ ["pandering", "performative", "sophisticated", "avant_garde"] := by
  unfold _analyze_audio_features
  dsimp only
  split_ifs <;> (repeat' apply keys_setK) <;>
    first
      | decide
      | (intro p hp; exact absurd hp (List.not_mem_nil p))

/-- Non-negativity of the audio sub-scorer at every category. -/
theorem audio_nonneg (afs : List AudioFeatures) (c : String) :
    0 ≤ getD (_analyze_audio_features afs) c 0 := by
  by_cases h : afs = []
  · subst h; rw [audio_empty]; simp [getD]
  · obtain ⟨h1, h2, h3, h4⟩ := audio_getD afs h
    by_cases hc1 : c = "pandering"
    · subst hc1; rw [h1]; split_ifs <;> norm_num
    by_cases hc2 : c = "performative"
    · subst hc2; rw [h2]; split_ifs <;> norm_num
    by_cases hc3 : c = "sophisticated"
    · subst hc3; rw [h3]; split_ifs <;> norm_num
    by_cases hc4 : c = "avant_garde"
    · subst hc4; rw [h4]; split_ifs <;> norm_num
    · have hz : getD (_analyze_audio_features afs) c 0 = 0 := by
        apply getD_eq_default
        intro p hp hpc
        have hmem := keys_audio4 afs p hp
        rw [hpc] at hmem
        simp only [List.mem_cons, List.not_mem_nil, or_false] at hmem
        rcases hmem with hh | hh | hh | hh
        · exact hc1 hh
        · exact hc2 hh
        · exact hc3 hh
        · exact hc4 hh
      rw [hz]

/-! ### The combination and normalization stage -/

/-- Each combined category total is non-negative. -/
theorem combined_nonneg (artists : List Artist) (tracks : List Track)
    (audio_features : List AudioFeatures) (c : String) :
    0 ≤ combinedScore artists tracks audio_features c := by
  unfold combinedScore
  have h1 := pop_nonneg artists tracks c
  have h2 := genres_nonneg artists c
  have h3 := audio_nonneg audio_features c
  have h4 := div_scorer_nonneg artists tracks c
  nlinarith

/-- Source `sum(scores.values())` written out over the six categories. -/
theorem total_raw_eq (artists : List Artist) (tracks : List Track)
    (audio_features : List AudioFeatures) :
    total_raw artists tracks audio_features
      = combinedScore artists tracks audio_features "performative"
      + combinedScore artists tracks audio_features "avant_garde"
      + combinedScore artists tracks audio_features "pandering"
      + combinedScore artists tracks audio_features "sophisticated"
      + combinedScore artists tracks audio_features "explorer"
      + combinedScore artists tracks audio_features "trendsetter" := by
  simp [total_raw, scores_list, six_categories]
  ring

/-- The pre-normalization total is non-negative. -/
theorem total_raw_nonneg (artists : List Artist) (tracks : List Track)
    (audio_features : List AudioFeatures) :
    0 ≤ total_raw artists tracks audio_features := by
  rw [total_raw_eq]
  have h1 := combined_nonneg artists tracks audio_features "performative"
  have h2 := combined_nonneg artists tracks audio_features "avant_garde"
  have h3 := combined_nonneg artists tracks audio_features "pandering"
  have h4 := combined_nonneg artists tracks audio_features "sophisticated"
  have h5 := combined_nonneg artists tracks audio_features "explorer"
  have h6 := combined_nonneg artists tracks audio_features "trendsetter"
  linarith

/-- The effective divisor (`sum ... or 1`) is positive. -/
theorem total_or_one_pos (artists : List Artist) (tracks : List Track)
    (audio_features : List AudioFeatures) :
    0 < total_or_one artists tracks audio_features := by
  unfold total_or_one
  split_ifs with h
  · norm_num
  · exact lt_of_le_of_ne (total_raw_nonneg artists tracks audio_features) (Ne.symm h)

/-- All normalized percentages are non-negative. -/
theorem normPct_nonneg (artists : List Artist) (tracks : List Track)
    (audio_features : List AudioFeatures) (c : String) :
    0 ≤ normPct artists tracks audio_features c := by
  unfold normPct
  apply mul_nonneg _ (by norm_num : (0:ℚ) ≤ 100)
  exact div_nonneg (combined_nonneg artists tracks audio_features c)
    (le_of_lt (total_or_one_pos artists tracks audio_features))

/-- With a nonzero total, the six normalized percentages sum to 100. -/
theorem normPct_sum_100 (artists : List Artist) (tracks : List Track)
    (audio_features : List AudioFeatures)
    (h : total_raw artists tracks audio_features ≠ 0) :
    (six_categories.map (normPct artists tracks audio_features)).sum = 100 := by
  have hT : total_or_one artists tracks audio_features
      = total_raw artists tracks audio_features := by
    simp [total_or_one, h]
  have hS := total_raw_eq artists tracks audio_features
  simp only [six_categories, List.map_cons, List.map_nil, List.sum_cons, List.sum_nil,
    normPct, hT]
  field_simp
  linarith

/-- A category outside the six has combined score zero. -/
theorem combined_zero_of_not_six (artists : List Artist) (tracks : List Track)
    (audio_features : List AudioFeatures) (c : String) (hc : c ∉ six_categories) :
    combinedScore artists tracks audio_features c = 0 := by
  unfold combinedScore
  rw [getD_eq_default _ c _ (fun p hp hpc => hc (by rw [← hpc]; exact keys_pop artists tracks p hp)),
    getD_eq_default _ c _ (fun p hp hpc => hc (by rw [← hpc]; exact keys_genres artists p hp)),
    getD_eq_default _ c _ (fun p hp hpc => hc (by rw [← hpc]; exact keys_audio audio_features p hp)),
    getD_eq_default _ c _ (fun p hp hpc => hc (by rw [← hpc]; exact keys_div artists tracks p hp))]
  norm_num

/-- With a zero total, every normalized percentage is zero. -/
theorem normPct_zero (artists : List Artist) (tracks : List Track)
    (audio_features : List AudioFeatures)
    (h : total_raw artists tracks audio_features = 0) (c : String) :
    normPct artists tracks audio_features c = 0 := by
  have hz : combinedScore artists tracks audio_features c = 0 := by
    by_cases hc : c ∈ six_categories
    · have hS := total_raw_eq artists tracks audio_features
      rw [h] at hS
      have h1 := combined_nonneg artists tracks audio_features "performative"
      have h2 := combined_nonneg artists tracks audio_features "avant_garde"
      have h3 := combined_nonneg artists tracks audio_features "pandering"
      have h4 := combined_nonneg artists tracks audio_features "sophisticated"
      have h5 := combined_nonneg artists tracks audio_features "explorer"
      have h6 := combined_nonneg artists tracks audio_features "trendsetter"
      fin_cases hc <;> linarith
    · exact combined_zero_of_not_six artists tracks audio_features c hc
  unfold normPct
  rw [hz, zero_div, zero_mul]

/-- The categories of the pre-sort result list, in order: the six-category
list filtered by the 5% condition on the unrounded percentage. -/
theorem map_cat_filterMap (cs : List String) (f : String → ℚ) :
    ((cs.map (fun c => (c, f c))).filterMap
        (fun p => if p.2 > 5 then some (mkScore p.1 p.2) else none)).map
      PersonalityScore.category
      = cs.filter (fun c => decide (f c > 5)) := by
  rw [List.filterMap_map]
  induction cs with
  | nil => rfl
  | cons c rest ih =>
      have hcomp : ((fun p : String × ℚ => if p.2 > 5 then some (mkScore p.1 p.2) else none) ∘
          fun c => (c, f c)) c = if f c > 5 then some (mkScore c (f c)) else none := rfl
      rw [List.filterMap_cons, hcomp, List.filter_cons]
      by_cases h : f c > 5
      · rw [if_pos h, if_pos (decide_eq_true h)]
        dsimp only
        rw [List.map_cons, ih]
        rfl
      · rw [if_neg h, if_neg (by simp [h])]
        dsimp only
        exact ih

/-- Sum of the picked percentages of the pre-sort result list is at most
the sum over all of `cs`, when `f` is non-negative. -/
theorem sum_filterMap_le (cs : List String) (f : String → ℚ) (hf : ∀ c, 0 ≤ f c) :
    (((cs.map (fun c => (c, f c))).filterMap
        (fun p => if p.2 > 5 then some (mkScore p.1 p.2) else none)).map
      (fun e => f e.category)).sum ≤ (cs.map f).sum := by
  induction cs with
  | nil => simp
  | cons c rest ih =>
      simp only [List.map_cons, List.filterMap_cons, List.sum_cons]
      by_cases h : f c > 5
      · simp only [if_pos h, List.map_cons, List.sum_cons, mkScore]
        exact add_le_add_left ih _
      · simp only [if_neg h]
        exact le_trans ih (le_add_of_nonneg_left (hf c))

/-- Categories of the pre-sort result list. -/
theorem resultsUnsorted_map_cat (artists : List Artist) (tracks : List Track)
    (audio_features : List AudioFeatures) :
    (resultsUnsorted artists tracks audio_features).map PersonalityScore.category
      = six_categories.filter
          (fun c => decide (normPct artists tracks audio_features c > 5)) := by
  unfold resultsUnsorted normalized_scores
  exact map_cat_filterMap six_categories (normPct artists tracks audio_features)

/-- No category is reported twice. -/
theorem analyze_cat_nodup (artists : List Artist) (tracks : List Track)
    (audio_features : List AudioFeatures) :
    ((analyze_personality artists tracks audio_features).map
      PersonalityScore.category).Nodup := by
  have hperm := (sortByPercentageDesc_perm
    (resultsUnsorted artists tracks audio_features)).map PersonalityScore.category
  unfold analyze_personality
  rw [hperm.nodup_iff, resultsUnsorted_map_cat]
  exact (show six_categories.Nodup by decide).filter _

/-- The unrounded percentages of the reported categories sum to at most
100. -/
theorem analyze_sum_le_100 (artists : List Artist) (tracks : List Track)
    (audio_features : List AudioFeatures) :
    ((analyze_personality artists tracks audio_features).map
      (fun e => normPct artists tracks audio_features e.category)).sum ≤ 100 := by
  have hperm := (sortByPercentageDesc_perm
    (resultsUnsorted artists tracks audio_features)).map
      (fun e => normPct artists tracks audio_features e.category)
  unfold analyze_personality
  rw [hperm.sum_eq]
  have h1 := sum_filterMap_le six_categories (normPct artists tracks audio_features)
    (normPct_nonneg artists tracks audio_features)
  by_cases h : total_raw artists tracks audio_features = 0
  · have hz : (six_categories.map (normPct artists tracks audio_features)).sum = 0 := by
      apply List.sum_eq_zero
      intro x hx
      rcases List.mem_map.mp hx with ⟨c, _, rfl⟩
      exact normPct_zero artists tracks audio_features h c
    calc _ ≤ (six_categories.map (normPct artists tracks audio_features)).sum := h1
      _ = 0 := hz
      _ ≤ 100 := by norm_num
  · calc _ ≤ (six_categories.map (normPct artists tracks audio_features)).sum := h1
      _ = 100 := normPct_sum_100 artists tracks audio_features h

/-! ### Exact shape of the genre sub-scorer dict -/

/-- Lemma: `setK` for an existing key does not change the key list. -/
theorem fst_setK (m : ScoreMap) (k : String) (v : ℚ) (h : k ∈ m.map Prod.fst) :
    (setK m k v).map Prod.fst = m.map Prod.fst := by
  induction m with
  | nil => simp at h
  | cons p ps ih =>
      simp only [List.map_cons, List.mem_cons] at h
      by_cases hp : p.1 = k
      · simp [setK, hp]
      · rcases h with h | h
        · exact absurd h.symm hp
        · simp [setK, hp, ih h]

/-- Lemma: `addWeights` does not change the key list when the added keys exist. -/
theorem fst_addWeights (ws sc : ScoreMap) (h : ∀ cw ∈ ws, cw.1 ∈ sc.map Prod.fst) :
    (addWeights sc ws).map Prod.fst = sc.map Prod.fst := by
  induction ws generalizing sc with
  | nil => simp [addWeights]
  | cons cw rest ih =>
      have h1 : addWeights sc (cw :: rest)
          = addWeights (setK sc cw.1 (getD sc cw.1 0 + cw.2)) rest := by
        simp [addWeights]
      have hk : cw.1 ∈ sc.map Prod.fst := h cw (List.mem_cons_self cw rest)
      have hfst := fst_setK sc cw.1 (getD sc cw.1 0 + cw.2) hk
      rw [h1, ih _ (fun q hq => hfst ▸ h q (List.mem_cons_of_mem cw hq)), hfst]

/-- The keyword loop does not change the key list when the table only
names keys present in the dict. -/
theorem fst_keyFold (L : List (String × ScoreMap)) (sc : ScoreMap) (tag : String)
    (hL : ∀ kw ∈ L, ∀ cw ∈ kw.2, cw.1 ∈ sc.map Prod.fst) :
    (L.foldl (fun sc kw => if genreMatches kw.1 tag then addWeights sc kw.2 else sc) sc).map
        Prod.fst
      = sc.map Prod.fst := by
  induction L generalizing sc with
  | nil => simp
  | cons kw rest ih =>
      simp only [List.foldl_cons]
      by_cases h : genreMatches kw.1 tag
      · rw [if_pos h]
        have hfst := fst_addWeights kw.2 sc (hL kw (List.mem_cons_self kw rest))
        rw [ih _ (fun q hq cw hcw => hfst ▸ hL q (List.mem_cons_of_mem kw hq) cw hcw), hfst]
      · rw [if_neg h]
        exact ih _ (fun q hq => hL q (List.mem_cons_of_mem kw hq))

/-- The tag loop keeps the six keys of the initial dict, in order. -/
theorem fst_tagFold (tags : List String) (sc : ScoreMap)
    (hsc : sc.map Prod.fst = six_categories) :
    (tags.foldl (fun sc genre => scoreTag sc (strLower genre)) sc).map Prod.fst
      = six_categories := by
  induction tags generalizing sc with
  | nil => simpa using hsc
  | cons g rest ih =>
      simp only [List.foldl_cons]
      refine ih _ ?_
      unfold scoreTag
      rw [fst_keyFold]
      · exact hsc
      · intro kw hkw cw hcw
        rw [hsc]
        exact genre_weights_keys kw hkw cw hcw

/-- An association list is recovered from its key list and its reads. -/
theorem alist_eq_of_keys (m : ScoreMap) (ks : List String)
    (h : m.map Prod.fst = ks) (hnodup : ks.Nodup) :
    m = ks.map (fun k => (k, getD m k 0)) := by
  induction m generalizing ks with
  | nil => simp at h; simp [← h]
  | cons p ps ih =>
      cases ks with
      | nil => simp at h
      | cons k ks' =>
          simp only [List.map_cons, List.cons.injEq] at h
          obtain ⟨hk, hks⟩ := h
          rcases List.nodup_cons.mp hnodup with ⟨hknot, hnodup'⟩
          simp only [List.map_cons, List.cons.injEq]
          constructor
          · rw [← hk]
            simp [getD]
          · have hcong : List.map (fun k => (k, getD (p :: ps) k 0)) ks'
                = List.map (fun k => (k, getD ps k 0)) ks' := by
              apply List.map_congr_left
              intro x hx
              have hxk : ¬ p.1 = x := by
                rw [hk]
                intro hc
                exact hknot (hc ▸ hx)
              simp [getD, hxk]
            rw [hcong]
            exact ih ks' hks hnodup'

/-- On non-empty tag lists the genre sub-scorer is exactly the six-entry
dict of divided raw sums, in category order. -/
theorem genres_eq (artists : List Artist) (h : all_genres_of artists ≠ []) :
    _analyze_genres artists
      = six_categories.map (fun c =>
          (c, genreRaw (all_genres_of artists) c / ((all_genres_of artists).length : ℚ))) := by
  have hne : (all_genres_of artists).isEmpty = false := by simp [List.isEmpty_iff, h]
  unfold _analyze_genres
  simp only [hne, Bool.false_eq_true, if_false]
  have hkeys : ((all_genres_of artists).foldl
      (fun sc genre => scoreTag sc (strLower genre)) genres_init).map Prod.fst
        = six_categories :=
    fst_tagFold _ _ (by decide)
  rw [alist_eq_of_keys _ six_categories hkeys (by decide), List.map_map]
  apply List.map_congr_left
  intro c hc
  simp only [Function.comp]
  rw [getD_tagFold, getD_genres_init, zero_add]

/-! ### Concrete evaluations of the pipeline on the example inputs -/

/-- Popularity sub-scorer on the mixed-tag artist (mean 50). -/
theorem pop_cex : _analyze_popularity [cexArtist] [] = [("explorer", 0.6)] := by
  norm_num [_analyze_popularity, avg_popularity, nonzero_artist_pops, nonzero_track_pops,
    cexArtist, mean]

/-- Genre sub-scorer on the mixed-tag artist. -/
theorem genres_cex : _analyze_genres [cexArtist]
    = [("performative", 1/5), ("avant_garde", 3/25), ("pandering", 0),
       ("sophisticated", 31/50), ("explorer", 4/25), ("trendsetter", 7/50)] := by
  rw [genres_eq [cexArtist] (by decide)]
  simp +decide [six_categories, all_genres_of, cexArtist, genreRaw, tagSum, wsum,
    genre_weights, strLower]
  norm_num

/-- Audio sub-scorer on the rule-1-and-3 vector. -/
theorem audio_cex : _analyze_audio_features [cexFeature]
    = [("pandering", 0.7), ("performative", 0.5), ("avant_garde", 0.6)] := by
  unfold _analyze_audio_features
  norm_num [avg_energy, avg_danceability, avg_valence, avg_acousticness,
    avg_instrumentalness, mean, cexFeature, setK, getD]
  simp

/-- Diversity sub-scorer on the mixed-tag artist (ratio 4/5). -/
theorem div_cex : _analyze_diversity [cexArtist] []
    = [("explorer", 0.8), ("trendsetter", 0.5)] := by
  have h1 : unique_genre_count [cexArtist] = 4 := by decide
  have h2 : total_genre_count [cexArtist] = 5 := by decide
  unfold _analyze_diversity
  norm_num [diversity_ratio_q, h1, h2]

/-- Tag count of the mixed-tag artist. -/
theorem len_cex : (all_genres_of [cexArtist]).length = 5 := by decide

/-- The combined `scores` dict of the mixed-tag example. -/
theorem scores_cex : scores_list [cexArtist] [] [cexFeature]
    = [("performative", 37/200), ("avant_garde", 93/500), ("pandering", 7/40),
       ("sophisticated", 93/500), ("explorer", 87/250), ("trendsetter", 117/1000)] := by
  simp [scores_list, six_categories, combinedScore, pop_cex, genres_cex, audio_cex, div_cex,
    getD, len_cex]
  norm_num

/-- Raw total of the mixed-tag example. -/
theorem total_raw_cex : total_raw [cexArtist] [] [cexFeature] = 1197/1000 := by
  simp [total_raw, scores_cex]
  norm_num

/-- Effective divisor of the mixed-tag example. -/
theorem total_cex : total_or_one [cexArtist] [] [cexFeature] = 1197/1000 := by
  norm_num [total_or_one, total_raw_cex]

/-- Unrounded percentage of performative in the mixed-tag example. -/
theorem npc1 : normPct [cexArtist] [] [cexFeature] "performative" = 18500/1197 := by
  simp [normPct, total_cex, combinedScore, pop_cex, genres_cex, audio_cex, div_cex, getD,
    len_cex]
  norm_num

/-- Unrounded percentage of avant-garde in the mixed-tag example. -/
theorem npc2 : normPct [cexArtist] [] [cexFeature] "avant_garde" = 18600/1197 := by
  simp [normPct, total_cex, combinedScore, pop_cex, genres_cex, audio_cex, div_cex, getD,
    len_cex]
  norm_num

/-- Unrounded percentage of pandering in the mixed-tag example. -/
theorem npc3 : normPct [cexArtist] [] [cexFeature] "pandering" = 17500/1197 := by
  simp [normPct, total_cex, combinedScore, pop_cex, genres_cex, audio_cex, div_cex, getD,
    len_cex]
  norm_num

/-- Unrounded percentage of sophisticated in the mixed-tag example. -/
theorem npc4 : normPct [cexArtist] [] [cexFeature] "sophisticated" = 18600/1197 := by
  simp [normPct, total_cex, combinedScore, pop_cex, genres_cex, audio_cex, div_cex, getD,
    len_cex]
  norm_num

/-- Unrounded percentage of explorer in the mixed-tag example. -/
theorem npc5 : normPct [cexArtist] [] [cexFeature] "explorer" = 34800/1197 := by
  simp [normPct, total_cex, combinedScore, pop_cex, genres_cex, audio_cex, div_cex, getD,
    len_cex]
  norm_num

/-- Unrounded percentage of trendsetter in the mixed-tag example. -/
theorem npc6 : normPct [cexArtist] [] [cexFeature] "trendsetter" = 11700/1197 := by
  simp [normPct, total_cex, combinedScore, pop_cex, genres_cex, audio_cex, div_cex, getD,
    len_cex]
  norm_num

/-- Pre-sort result list of the mixed-tag example: three distinct
unrounded percentages all round to 15.5. -/
theorem results_cex : resultsUnsorted [cexArtist] [] [cexFeature]
    = [⟨"performative", 31/2, descOf "performative", traitsOf "performative"⟩,
       ⟨"avant_garde", 31/2, descOf "avant_garde", traitsOf "avant_garde"⟩,
       ⟨"pandering", 73/5, descOf "pandering", traitsOf "pandering"⟩,
       ⟨"sophisticated", 31/2, descOf "sophisticated", traitsOf "sophisticated"⟩,
       ⟨"explorer", 291/10, descOf "explorer", traitsOf "explorer"⟩,
       ⟨"trendsetter", 49/5, descOf "trendsetter", traitsOf "trendsetter"⟩] := by
  have hr1 : pyRound1 (18500/1197) = 31/2 := by norm_num [pyRound1, roundHalfEven]
  have hr2 : pyRound1 (6200/399) = 31/2 := by norm_num [pyRound1, roundHalfEven]
  have hr3 : pyRound1 (2500/171) = 73/5 := by norm_num [pyRound1, roundHalfEven]
  have hr5 : pyRound1 (11600/399) = 291/10 := by norm_num [pyRound1, roundHalfEven]
  have hr6 : pyRound1 (1300/133) = 49/5 := by norm_num [pyRound1, roundHalfEven]
  norm_num [resultsUnsorted, normalized_scores, six_categories, npc1, npc2, npc3, npc4,
    npc5, npc6, mkScore, List.filterMap_cons, hr1, hr2, hr3, hr5, hr6]

/-- Final sorted output of the mixed-tag example: the 15.5-tie keeps the
insertion order performative, avant-garde, sophisticated. -/
theorem analyze_cex : analyze_personality [cexArtist] [] [cexFeature]
    = [⟨"explorer", 291/10, descOf "explorer", traitsOf "explorer"⟩,
       ⟨"performative", 31/2, descOf "performative", traitsOf "performative"⟩,
       ⟨"avant_garde", 31/2, descOf "avant_garde", traitsOf "avant_garde"⟩,
       ⟨"sophisticated", 31/2, descOf "sophisticated", traitsOf "sophisticated"⟩,
       ⟨"pandering", 73/5, descOf "pandering", traitsOf "pandering"⟩,
       ⟨"trendsetter", 49/5, descOf "trendsetter", traitsOf "trendsetter"⟩] := by
  norm_num [analyze_personality, results_cex, sortByPercentageDesc, insertDesc]

/-- Popularity sub-scorer on the low-popularity artist (mean 20). -/
theorem pop_ex10 : _analyze_popularity [exArtist10] []
    = [("avant_garde", 0.7), ("sophisticated", 0.5)] := by
  norm_num [_analyze_popularity, avg_popularity, nonzero_artist_pops, nonzero_track_pops,
    exArtist10, mean]

/-- Genre sub-scorer on the single-tag "world" artist. -/
theorem genres_ex10 : _analyze_genres [exArtist10]
    = [("performative", 0), ("avant_garde", 0), ("pandering", 0),
       ("sophisticated", 1/2), ("explorer", 4/5), ("trendsetter", 0)] := by
  rw [genres_eq [exArtist10] (by decide)]
  simp +decide [six_categories, all_genres_of, exArtist10, genreRaw, tagSum, wsum,
    genre_weights, strLower]
  norm_num

/-- Audio sub-scorer on the example vector of the spec: rules 1, 3 and 4 fire
and the avant-garde score stacks to 1.0. -/
theorem audio_ex10 : _analyze_audio_features [exFeature10]
    = [("pandering", 0.7), ("performative", 0.5), ("avant_garde", 1)] := by
  unfold _analyze_audio_features
  norm_num [avg_energy, avg_danceability, avg_valence, avg_acousticness,
    avg_instrumentalness, mean, exFeature10, setK, getD]
  simp
  norm_num

/-- Diversity sub-scorer on the single-tag artist (ratio 1). -/
theorem div_ex10 : _analyze_diversity [exArtist10] []
    = [("explorer", 0.8), ("trendsetter", 0.5)] := by
  have h1 : unique_genre_count [exArtist10] = 1 := by decide
  have h2 : total_genre_count [exArtist10] = 1 := by decide
  unfold _analyze_diversity
  norm_num [diversity_ratio_q, h1, h2]

/-- Tag count of the single-tag artist. -/
theorem len_ex10 : (all_genres_of [exArtist10]).length = 1 := by decide

/-- The combined `scores` dict of the low-popularity example. -/
theorem scores_ex10 : scores_list [exArtist10] [] [exFeature10]
    = [("performative", 1/8), ("avant_garde", 23/50), ("pandering", 7/40),
       ("sophisticated", 3/10), ("explorer", 9/25), ("trendsetter", 3/40)] := by
  simp [scores_list, six_categories, combinedScore, pop_ex10, genres_ex10, audio_ex10,
    div_ex10, getD, len_ex10]
  norm_num

/-- Raw total of the low-popularity example. -/
theorem total_raw_ex10 : total_raw [exArtist10] [] [exFeature10] = 299/200 := by
  simp [total_raw, scores_ex10]
  norm_num

/-- Effective divisor of the low-popularity example. -/
theorem total_ex10 : total_or_one [exArtist10] [] [exFeature10] = 299/200 := by
  norm_num [total_or_one, total_raw_ex10]

/-- Unrounded percentage of performative in the low-popularity example. -/
theorem npt1 : normPct [exArtist10] [] [exFeature10] "performative" = 2500/299 := by
  simp [normPct, total_ex10, combinedScore, pop_ex10, genres_ex10, audio_ex10, div_ex10,
    getD, len_ex10]
  norm_num

/-- Unrounded percentage of avant-garde in the low-popularity example. -/
theorem npt2 : normPct [exArtist10] [] [exFeature10] "avant_garde" = 400/13 := by
  simp [normPct, total_ex10, combinedScore, pop_ex10, genres_ex10, audio_ex10, div_ex10,
    getD, len_ex10]
  norm_num

/-- Unrounded percentage of pandering in the low-popularity example. -/
theorem npt3 : normPct [exArtist10] [] [exFeature10] "pandering" = 3500/299 := by
  simp [normPct, total_ex10, combinedScore, pop_ex10, genres_ex10, audio_ex10, div_ex10,
    getD, len_ex10]
  norm_num

/-- Unrounded percentage of sophisticated in the low-popularity example. -/
theorem npt4 : normPct [exArtist10] [] [exFeature10] "sophisticated" = 6000/299 := by
  simp [normPct, total_ex10, combinedScore, pop_ex10, genres_ex10, audio_ex10, div_ex10,
    getD, len_ex10]
  norm_num

/-- Unrounded percentage of explorer in the low-popularity example. -/
theorem npt5 : normPct [exArtist10] [] [exFeature10] "explorer" = 7200/299 := by
  simp [normPct, total_ex10, combinedScore, pop_ex10, genres_ex10, audio_ex10, div_ex10,
    getD, len_ex10]
  norm_num

/-- Unrounded percentage of trendsetter in the low-popularity example:
1500/299 is strictly between 5 and 5.05. -/
theorem npt6 : normPct [exArtist10] [] [exFeature10] "trendsetter" = 1500/299 := by
  simp [normPct, total_ex10, combinedScore, pop_ex10, genres_ex10, audio_ex10, div_ex10,
    getD, len_ex10]
  norm_num

/-- Pre-sort result list of the low-popularity example: the trendsetter
share 1500/299 is kept by the 5% filter and rounds to exactly 5.0. -/
theorem results_ex10 : resultsUnsorted [exArtist10] [] [exFeature10]
    = [⟨"performative", 42/5, descOf "performative", traitsOf "performative"⟩,
       ⟨"avant_garde", 154/5, descOf "avant_garde", traitsOf "avant_garde"⟩,
       ⟨"pandering", 117/10, descOf "pandering", traitsOf "pandering"⟩,
       ⟨"sophisticated", 201/10, descOf "sophisticated", traitsOf "sophisticated"⟩,
       ⟨"explorer", 241/10, descOf "explorer", traitsOf "explorer"⟩,
       ⟨"trendsetter", 5, descOf "trendsetter", traitsOf "trendsetter"⟩] := by
  have hr1 : pyRound1 (2500/299) = 42/5 := by norm_num [pyRound1, roundHalfEven]
  have hr2 : pyRound1 (400/13) = 154/5 := by norm_num [pyRound1, roundHalfEven]
  have hr3 : pyRound1 (3500/299) = 117/10 := by norm_num [pyRound1, roundHalfEven]
  have hr4 : pyRound1 (6000/299) = 201/10 := by norm_num [pyRound1, roundHalfEven]
  have hr5 : pyRound1 (7200/299) = 241/10 := by norm_num [pyRound1, roundHalfEven]
  have hr6 : pyRound1 (1500/299) = 5 := by norm_num [pyRound1, roundHalfEven]
  norm_num [resultsUnsorted, normalized_scores, six_categories, npt1, npt2, npt3, npt4,
    npt5, npt6, mkScore, List.filterMap_cons, hr1, hr2, hr3, hr4, hr5, hr6]

/-- Final sorted output of the low-popularity example. -/
theorem analyze_ex10 : analyze_personality [exArtist10] [] [exFeature10]
    = [⟨"avant_garde", 154/5, descOf "avant_garde", traitsOf "avant_garde"⟩,
       ⟨"explorer", 241/10, descOf "explorer", traitsOf "explorer"⟩,
       ⟨"sophisticated", 201/10, descOf "sophisticated", traitsOf "sophisticated"⟩,
       ⟨"pandering", 117/10, descOf "pandering", traitsOf "pandering"⟩,
       ⟨"performative", 42/5, descOf "performative", traitsOf "performative"⟩,
       ⟨"trendsetter", 5, descOf "trendsetter", traitsOf "trendsetter"⟩] := by
  norm_num [analyze_personality, results_ex10, sortByPercentageDesc, insertDesc]

/-- Popularity sub-scorer on the empty inputs. -/
theorem pop_nil : _analyze_popularity [] [] = [] := rfl

/-- Genre sub-scorer on the empty inputs. -/
theorem genres_nil : _analyze_genres [] = [] := rfl

/-- Diversity sub-scorer on the empty inputs: with no genre tags the
floored denominator gives ratio 0, and 0 < 0.3 fires the pandering
branch. -/
theorem div_nil : _analyze_diversity [] [] = [("pandering", 3/5)] := by
  have h1 : unique_genre_count [] = 0 := by decide
  have h2 : total_genre_count [] = 1 := by decide
  unfold _analyze_diversity
  norm_num [diversity_ratio_q, h1, h2]

/-- The combined `scores` dict of the empty inputs. -/
theorem scores_nil : scores_list [] [] []
    = [("performative", 0), ("avant_garde", 0), ("pandering", 9/100),
       ("sophisticated", 0), ("explorer", 0), ("trendsetter", 0)] := by
  simp [scores_list, six_categories, combinedScore, pop_nil, genres_nil, audio_empty,
    div_nil, getD]
  norm_num

/-- Raw total of the empty inputs. -/
theorem total_raw_nil : total_raw [] [] [] = 9/100 := by
  simp [total_raw, scores_nil]

/-- Effective divisor of the empty inputs. -/
theorem total_nil : total_or_one [] [] [] = 9/100 := by
  norm_num [total_or_one, total_raw_nil]

/-- On empty inputs the pandering percentage is 100. -/
theorem npn3 : normPct [] [] [] "pandering" = 100 := by
  simp [normPct, total_nil, combinedScore, pop_nil, genres_nil, audio_empty, div_nil, getD]
  norm_num

/-- On empty inputs every other category has percentage 0. -/
theorem npn_other : ∀ c, c ≠ "pandering" → c ∈ six_categories → normPct [] [] [] c = 0 := by
  intro c hc hmem
  fin_cases hmem <;> simp at hc <;>
    (simp [normPct, total_nil, combinedScore, pop_nil, genres_nil, audio_empty, div_nil, getD])

/-- Pre-sort result list of the empty inputs. -/
theorem results_nil : resultsUnsorted [] [] []
    = [⟨"pandering", 100, descOf "pandering", traitsOf "pandering"⟩] := by
  have hr : pyRound1 100 = 100 := by norm_num [pyRound1, roundHalfEven]
  have h1 : normPct [] [] [] "performative" = 0 := npn_other _ (by decide) (by decide)
  have h2 : normPct [] [] [] "avant_garde" = 0 := npn_other _ (by decide) (by decide)
  have h4 : normPct [] [] [] "sophisticated" = 0 := npn_other _ (by decide) (by decide)
  have h5 : normPct [] [] [] "explorer" = 0 := npn_other _ (by decide) (by decide)
  have h6 : normPct [] [] [] "trendsetter" = 0 := npn_other _ (by decide) (by decide)
  norm_num [resultsUnsorted, normalized_scores, six_categories, npn3, h1, h2, h4, h5, h6,
    mkScore, List.filterMap_cons, hr]

/-- Final output of the analyzer on three empty collections: a single
pandering entry at 100%. -/
theorem analyze_nil : analyze_personality [] [] []
    = [⟨"pandering", 100, descOf "pandering", traitsOf "pandering"⟩] := by
  norm_num [analyze_personality, results_nil, sortByPercentageDesc, insertDesc]

/-- Genre sub-scorer on the single "classical" artist: sophisticated 0.9
and avant-garde 0.3. -/
theorem genres_classical : _analyze_genres [exArtistClassical]
    = [("performative", 0), ("avant_garde", 3/10), ("pandering", 0),
       ("sophisticated", 9/10), ("explorer", 0), ("trendsetter", 0)] := by
  rw [genres_eq [exArtistClassical] (by decide)]
  simp +decide [six_categories, all_genres_of, exArtistClassical, genreRaw, tagSum, wsum,
    genre_weights, strLower]
  norm_num

/-! ### The claims -/

/-- Claim C1, counterexample: on three empty input collections
`analyze_personality` does not return the empty list (the diversity
sub-scorer contributes pandering 0.6 through its ratio-0 branch). -/
theorem claim_C1_counterexample : analyze_personality [] [] [] ≠ [] := by
  rw [analyze_nil]
  simp

/-- Claim C1, amended: on three empty input collections no error path is
taken and the result is the single-entry list carrying pandering at
100.0 with its static description and traits — not the empty list. -/
theorem claim_C1 : analyze_personality [] [] []
    = [⟨"pandering", 100, descOf "pandering", traitsOf "pandering"⟩] :=
  analyze_nil

/-- Claim C2, counterexample: when the artists contribute no genre tags
the diversity sub-scorer returns the singleton mapping
`{pandering: 0.6}`, not the empty mapping (the floored denominator makes
the ratio 0, and 0 < 0.3 fires the pandering branch). -/
theorem claim_C2_counterexample :
    _analyze_diversity [] [] = [("pandering", 3/5)] ∧ _analyze_diversity [] [] ≠ [] :=
  ⟨div_nil, by rw [div_nil]; simp⟩

/-- Claim C2, amended: the diversity sub-scorer returns the empty mapping
whenever the diversity ratio lies in the closed band 0.3 ≤ ratio ≤ 0.7 —
in particular ratios exactly 0.3 and exactly 0.7 fire neither branch,
since both threshold comparisons are strict — while the zero-genre case
yields ratio 0 (floored denominator) and hence `{pandering: 0.6}`, not
the empty mapping. -/
theorem claim_C2 (artists : List Artist) (tracks : List Track) :
    (3/10 ≤ diversity_ratio_q artists → diversity_ratio_q artists ≤ 7/10 →
      _analyze_diversity artists tracks = []) ∧
    (all_genres_of artists = [] →
      _analyze_diversity artists tracks = [("pandering", 3/5)]) := by
  constructor
  · intro h1 h2
    unfold _analyze_diversity
    have hn1 : ¬ diversity_ratio_q artists > 0.7 := by
      rw [show (0.7 : ℚ) = 7/10 by norm_num]
      exact not_lt.mpr h2
    have hn2 : ¬ diversity_ratio_q artists < 0.3 := by
      rw [show (0.3 : ℚ) = 3/10 by norm_num]
      exact not_lt.mpr h1
    rw [if_neg hn1, if_neg hn2]
  · intro h
    have h1 : unique_genre_count artists = 0 := by
      simp [unique_genre_count, h]
      rfl
    have h2 : total_genre_count artists = 1 := by
      simp [total_genre_count, h]
    unfold _analyze_diversity
    norm_num [diversity_ratio_q, h1, h2]

/-- Claim C2, witness: an artist with tags [indie, indie, folk] has
diversity ratio 2/3, inside the closed band, and the sub-scorer returns
the empty mapping. -/
theorem claim_C2_witness :
    (3/10 ≤ diversity_ratio_q [exArtistBand] ∧ diversity_ratio_q [exArtistBand] ≤ 7/10) ∧
    _analyze_diversity [exArtistBand] [] = [] := by
  have hr : diversity_ratio_q [exArtistBand] = 2/3 := by
    have h1 : unique_genre_count [exArtistBand] = 2 := by decide
    have h2 : total_genre_count [exArtistBand] = 3 := by decide
    norm_num [diversity_ratio_q, h1, h2]
  refine ⟨⟨by rw [hr]; norm_num, by rw [hr]; norm_num⟩, ?_⟩
  exact (claim_C2 [exArtistBand] []).1 (by rw [hr]; norm_num) (by rw [hr]; norm_num)

/-- Claim C3: the popularity sub-scorer averages only the nonzero artist
and track popularity values; with no nonzero value it returns the empty
mapping, and otherwise exactly one branch fires — mean ≥ 70 (inclusive)
gives performative 0.8 and pandering 0.6, mean ≤ 30 gives avant-garde
0.7 and sophisticated 0.5, and a mean strictly between gives explorer
0.6. -/
theorem claim_C3 (artists : List Artist) (tracks : List Track) :
    ((nonzero_artist_pops artists = [] ∧ nonzero_track_pops tracks = []) →
        _analyze_popularity artists tracks = []) ∧
    (¬(nonzero_artist_pops artists = [] ∧ nonzero_track_pops tracks = []) →
      (avg_popularity artists tracks ≥ 70 →
          _analyze_popularity artists tracks = [("performative", 0.8), ("pandering", 0.6)]) ∧
      (avg_popularity artists tracks ≤ 30 →
          _analyze_popularity artists tracks = [("avant_garde", 0.7), ("sophisticated", 0.5)]) ∧
      (30 < avg_popularity artists tracks → avg_popularity artists tracks < 70 →
          _analyze_popularity artists tracks = [("explorer", 0.6)])) := by
  unfold _analyze_popularity
  constructor
  · intro ⟨h1, h2⟩
    rw [if_pos]
    simp [List.isEmpty_iff, h1, h2]
  · intro h
    have hne : ¬((nonzero_artist_pops artists).isEmpty
        && (nonzero_track_pops tracks).isEmpty) = true := by
      simp only [Bool.and_eq_true, List.isEmpty_iff]
      exact fun hc => h hc
    rw [if_neg hne]
    refine ⟨fun h70 => ?_, fun h30 => ?_, fun hlo hhi => ?_⟩
    · rw [if_pos h70]
    · split_ifs with ha
      · exfalso; linarith
      · rfl
    · split_ifs with ha hb
      · exfalso; linarith
      · exfalso; linarith
      · rfl

/-- Claim C3, witness: a single artist of popularity 80 and no tracks has
mean 80 ≥ 70, and the performative/pandering branch fires. -/
theorem claim_C3_witness :
    ¬(nonzero_artist_pops [exArtistPop80] = [] ∧ nonzero_track_pops [] = []) ∧
    avg_popularity [exArtistPop80] [] ≥ 70 ∧
    _analyze_popularity [exArtistPop80] []
      = [("performative", 0.8), ("pandering", 0.6)] := by
  have h1 : ¬(nonzero_artist_pops [exArtistPop80] = [] ∧ nonzero_track_pops [] = []) := by
    decide
  have h2 : avg_popularity [exArtistPop80] [] = 80 := by
    norm_num [avg_popularity, mean, nonzero_artist_pops, nonzero_track_pops, exArtistPop80]
  exact ⟨h1, by rw [h2]; norm_num,
    ((claim_C3 [exArtistPop80] []).2 h1).1 (by rw [h2]; norm_num)⟩

/-- Claim C4: a lowercased tag matches a keyword exactly when the keyword
is a substring of the tag or some whitespace-delimited word of the
keyword is; each match adds the full weight dictionary of the keyword,
every accumulator is divided by the total tag count (duplicates
included), the empty tag list yields the empty mapping, and the single
"classical" artist gets sophisticated 0.9 and avant-garde 0.3. -/
theorem claim_C4 :
    (∀ artists, all_genres_of artists = [] → _analyze_genres artists = []) ∧
    (∀ artists, all_genres_of artists ≠ [] → ∀ c,
        getD (_analyze_genres artists) c 0
          = genreRaw (all_genres_of artists) c / ((all_genres_of artists).length : ℚ)) ∧
    (∀ genre_key genre_lower, genreMatches genre_key genre_lower = true ↔
        (strIn genre_key genre_lower = true ∨
         ∃ word ∈ pySplit genre_key, strIn word genre_lower = true)) ∧
    _analyze_genres [exArtistClassical]
      = [("performative", 0), ("avant_garde", 3/10), ("pandering", 0),
         ("sophisticated", 9/10), ("explorer", 0), ("trendsetter", 0)] := by
  refine ⟨genres_empty, genres_getD, ?_, genres_classical⟩
  intro genre_key genre_lower
  simp [genreMatches, List.any_eq_true, Bool.or_eq_true]

/-- Claim C4, witness: the single-tag "classical" artist has a non-empty
tag list, and the formula evaluates to sophisticated 0.9 and avant-garde
0.3. -/
theorem claim_C4_witness :
    all_genres_of [exArtistClassical] ≠ [] ∧
    getD (_analyze_genres [exArtistClassical]) "sophisticated" 0 = 9/10 ∧
    getD (_analyze_genres [exArtistClassical]) "avant_garde" 0 = 3/10 := by
  have hne : all_genres_of [exArtistClassical] ≠ [] := by decide
  constructor
  · exact hne
  constructor
  · rw [claim_C4.2.1 [exArtistClassical] hne "sophisticated"]
    simp +decide [all_genres_of, exArtistClassical, genreRaw, tagSum, wsum,
      genre_weights, strLower]
    norm_num
  · rw [claim_C4.2.1 [exArtistClassical] hne "avant_garde"]
    simp +decide [all_genres_of, exArtistClassical, genreRaw, tagSum, wsum,
      genre_weights, strLower]
    norm_num

/-- Claim C5: the audio sub-scorer takes the means of energy,
danceability, valence, acousticness and instrumentalness, applies its
four rules independently with the two avant-garde contributions
stacking, returns the empty mapping on empty input, and on the example
vector (energy 0.8, danceability 0.8, instrumentalness 0.6, valence
0.95) returns pandering 0.7, performative 0.5 and avant-garde 1.0. -/
theorem claim_C5 :
    (∀ afs : List AudioFeatures, afs = [] → _analyze_audio_features afs = []) ∧
    (∀ afs : List AudioFeatures, afs ≠ [] →
      getD (_analyze_audio_features afs) "pandering" 0
          = (if avg_energy afs > 0.7 ∧ avg_danceability afs > 0.7 then 0.7 else 0) ∧
      getD (_analyze_audio_features afs) "performative" 0
          = (if avg_energy afs > 0.7 ∧ avg_danceability afs > 0.7 then 0.5 else 0) ∧
      getD (_analyze_audio_features afs) "sophisticated" 0
          = (if avg_acousticness afs > 0.6 ∧ avg_energy afs < 0.4 then 0.8 else 0) ∧
      getD (_analyze_audio_features afs) "avant_garde" 0
          = (if avg_instrumentalness afs > 0.5 then 0.6 else 0)
            + (if avg_valence afs < 0.3 ∨ avg_valence afs > 0.9 then 0.4 else 0)) ∧
    _analyze_audio_features [exFeature10]
      = [("pandering", 0.7), ("performative", 0.5), ("avant_garde", 1)] := by
  refine ⟨?_, audio_getD, audio_ex10⟩
  intro afs h
  subst h
  exact audio_empty

/-- Claim C5, witness: on the example vector the stacked avant-garde
score evaluates to 1 (0.6 from instrumentalness plus 0.4 from
valence). -/
theorem claim_C5_witness :
    ([exFeature10] : List AudioFeatures) ≠ [] ∧
    getD (_analyze_audio_features [exFeature10]) "avant_garde" 0 = 1 := by
  have hne : ([exFeature10] : List AudioFeatures) ≠ [] := by simp
  refine ⟨hne, ?_⟩
  rw [(claim_C5.2.1 [exFeature10] hne).2.2.2]
  have hi : avg_instrumentalness [exFeature10] = 3/5 := by
    norm_num [avg_instrumentalness, mean, exFeature10]
  have hv : avg_valence [exFeature10] = 19/20 := by
    norm_num [avg_valence, mean, exFeature10]
  rw [hi, hv]
  norm_num

/-- Claim C6: every combined category total is non-negative; with a
nonzero total the six normalized percentages sum to exactly 100; with a
zero total the divisor is 1 and all percentages are 0; hence the
unrounded percentages of the filtered output always sum to at most
100. -/
theorem claim_C6 (artists : List Artist) (tracks : List Track)
    (audio_features : List AudioFeatures) :
    (∀ c, 0 ≤ combinedScore artists tracks audio_features c) ∧
    (total_raw artists tracks audio_features ≠ 0 →
      (six_categories.map (normPct artists tracks audio_features)).sum = 100) ∧
    (total_raw artists tracks audio_features = 0 →
      ∀ c, normPct artists tracks audio_features c = 0) ∧
    ((analyze_personality artists tracks audio_features).map
      (fun e => normPct artists tracks audio_features e.category)).sum ≤ 100 :=
  ⟨combined_nonneg artists tracks audio_features,
   normPct_sum_100 artists tracks audio_features,
   normPct_zero artists tracks audio_features,
   analyze_sum_le_100 artists tracks audio_features⟩

/-- Claim C6, witness: the empty input has nonzero total 9/100, and its
six percentages sum to exactly 100. -/
theorem claim_C6_witness :
    total_raw [] [] [] ≠ 0 ∧ (six_categories.map (normPct [] [] [])).sum = 100 := by
  have h : total_raw [] [] [] ≠ 0 := by rw [total_raw_nil]; norm_num
  exact ⟨h, (claim_C6 [] [] []).2.1 h⟩

/-- Claim C7, counterexample: on the mixed-tag example the output lists
performative (unrounded 18500/1197 ≈ 15.455) before avant-garde
(unrounded 18600/1197 ≈ 15.539), because both round to 15.5 and the sort
key is the rounded percentage — so the output is not descending in the
unrounded percentage. -/
theorem claim_C7_counterexample :
    (analyze_personality [cexArtist] [] [cexFeature]).map PersonalityScore.category
      = ["explorer", "performative", "avant_garde", "sophisticated", "pandering",
         "trendsetter"] ∧
    normPct [cexArtist] [] [cexFeature] "performative"
      < normPct [cexArtist] [] [cexFeature] "avant_garde" := by
  constructor
  · rw [analyze_cex]
    rfl
  · rw [npc1, npc2]
    norm_num

/-- Claim C7, amended: the returned entries are in descending order of
the stored percentage field, i.e. of the percentage rounded to one
decimal — rounding happens before the sort, which uses the rounded value
as its key, so entries whose rounded percentages tie keep insertion
order and their unrounded percentages may be inverted. -/
theorem claim_C7 (artists : List Artist) (tracks : List Track)
    (audio_features : List AudioFeatures) :
    (analyze_personality artists tracks audio_features).Pairwise
      (fun a b => b.percentage ≤ a.percentage) :=
  sortByPercentageDesc_pairwise (resultsUnsorted artists tracks audio_features)

/-- Claim C8: every entry of the returned list has unrounded normalized
percentage strictly greater than 5 — a category at or below the 5%
threshold never appears, whatever its raw score. -/
theorem claim_C8 (artists : List Artist) (tracks : List Track)
    (audio_features : List AudioFeatures) (e : PersonalityScore)
    (he : e ∈ analyze_personality artists tracks audio_features) :
    5 < normPct artists tracks audio_features e.category := by
  rcases mem_resultsUnsorted.mp (mem_analyze.mp he) with ⟨c, hc, h5, rfl⟩
  exact h5

/-- Claim C8, witness: the pandering entry of the empty-input run is in
the output and its unrounded percentage 100 exceeds 5. -/
theorem claim_C8_witness :
    (⟨"pandering", 100, descOf "pandering", traitsOf "pandering"⟩ : PersonalityScore)
        ∈ analyze_personality [] [] [] ∧
    5 < normPct [] [] [] "pandering" := by
  have hm : (⟨"pandering", 100, descOf "pandering", traitsOf "pandering"⟩ : PersonalityScore)
      ∈ analyze_personality [] [] [] := by
    rw [analyze_nil]
    exact List.mem_singleton.mpr rfl
  have h8 := claim_C8 [] [] [] _ hm
  dsimp only at h8
  exact ⟨hm, h8⟩

/-- Claim C9: every key of every sub-scorer output is one of the six
fixed categories; every returned entry carries a category of this set
with description and traits read from the static lookup table; no
category appears twice; and the table names exactly the six categories
in order. -/
theorem claim_C9 (artists : List Artist) (tracks : List Track)
    (audio_features : List AudioFeatures) :
    (∀ p ∈ _analyze_popularity artists tracks, p.1 ∈ six_categories) ∧
    (∀ p ∈ _analyze_genres artists, p.1 ∈ six_categories) ∧
    (∀ p ∈ _analyze_audio_features audio_features, p.1 ∈ six_categories) ∧
    (∀ p ∈ _analyze_diversity artists tracks, p.1 ∈ six_categories) ∧
    (∀ e ∈ analyze_personality artists tracks audio_features,
        e.category ∈ six_categories ∧
        e.description = descOf e.category ∧ e.traits = traitsOf e.category) ∧
    ((analyze_personality artists tracks audio_features).map
      PersonalityScore.category).Nodup ∧
    _get_personality_descriptions.map (fun p => p.1) = six_categories := by
  refine ⟨keys_pop artists tracks, keys_genres artists, keys_audio audio_features,
    keys_div artists tracks, ?_, analyze_cat_nodup artists tracks audio_features, by decide⟩
  intro e he
  rcases mem_resultsUnsorted.mp (mem_analyze.mp he) with ⟨c, hc, h5, rfl⟩
  exact ⟨hc, rfl, rfl⟩

/-- Claim C9, witness: the pandering entry emitted by the diversity
sub-scorer on empty input has its key in the six-category set. -/
theorem claim_C9_witness :
    (("pandering", (3:ℚ)/5) ∈ _analyze_diversity [] []) ∧ "pandering" ∈ six_categories := by
  have hm : (("pandering", (3:ℚ)/5) ∈ _analyze_diversity [] []) := by
    rw [div_nil]
    exact List.mem_singleton.mpr rfl
  exact ⟨hm, (claim_C9 [] [] []).2.2.2.1 _ hm⟩

/-- Claim C10: the 5% filter tests the unrounded percentage and rounding
happens afterwards — on the low-popularity example the trendsetter share
1500/299 lies strictly between 5 and 5.05, so the entry is kept and its
stored percentage is exactly 5.0. -/
theorem claim_C10 :
    (⟨"trendsetter", 5, descOf "trendsetter", traitsOf "trendsetter"⟩ : PersonalityScore)
        ∈ analyze_personality [exArtist10] [] [exFeature10] ∧
    5 < normPct [exArtist10] [] [exFeature10] "trendsetter" ∧
    normPct [exArtist10] [] [exFeature10] "trendsetter" < 101/20 := by
  refine ⟨?_, ?_, ?_⟩
  · rw [analyze_ex10]
    simp
  · rw [npt6]
    norm_num
  · rw [npt6]
    norm_num
